import Mathlib

/-!
Verification of the tabular extraction & reconciliation engine of the
`data-etl-api` repository, shallowly embedded in Lean 4.

The embedding translates the Python source:
  * `app/services/eiu_service.py` (indicator extractor),
  * `app/schemas/eiu_schemas.py` (`ExcelRowData.to_dataframe_dict`),
  * `app/core/constants/eiu.py` (catalog and constants),
  * `app/utils/excel_utils.py` (`_find_header_idx`),
  * `app/services/major_trade_partner_service.py` (trade extractor/aggregator),
  * `app/services/customs_item_service.py` / `socioeconomic_index_service.py`
    (country-name bridging),
  * `app/repositories/history_repository.py` (run ledger calls).

Python dicts are modelled as insertion-ordered association lists with
update-in-place / append-at-end semantics; Python floats as exact rationals;
fallible operations as `Except`.
-/

set_option maxHeartbeats 1600000

namespace ETL

/-- A raw spreadsheet cell value as surfaced by `openpyxl` / `pandas`:
`None`, a float `NaN`, a string, or a (finite) float modelled as a rational. -/
inductive PyVal where
  | vNone
  | vNaN
  | vStr (s : String)
  | vFloat (q : ℚ)
  deriving DecidableEq, Repr

/-- Left-pad the decimal rendering of `n` with zeros up to width `k`. -/
def padZeros (n : Nat) (k : Nat) : String :=
  let s := toString n
  String.mk (List.replicate (k - s.length) '0') ++ s

/-- Decimal rendering of a rational whose denominator divides a power of ten
(the only case exercised here), mirroring Python `str` on such floats:
`3 ↦ "3.0"`, `3.5 ↦ "3.5"`.  Falls back to `Rat.toString` otherwise. -/
def floatRepr (q : ℚ) : String :=
  match (List.range 31).find? (fun k => (q * (10 ^ k : ℚ)).den = 1) with
  | some 0 => toString (q.num) ++ ".0"
  | some k =>
      let z := (q * (10 ^ k : ℚ)).num
      (if z < 0 then "-" else "") ++
        toString (z.natAbs / 10 ^ k) ++ "." ++ padZeros (z.natAbs % 10 ^ k) k
  | none => toString q

/-- Python `str()` of a cell value: `str(None) = "None"`, `str(nan) = "nan"`. -/
def pyStrOf : PyVal → String
  | .vNone => "None"
  | .vNaN => "nan"
  | .vStr s => s
  | .vFloat q => floatRepr q

/-- `pandas.isna`: true exactly on `None` and `NaN`. -/
def pyIsNa : PyVal → Bool
  | .vNone => true
  | .vNaN => true
  | _ => false

/-- Digit characters to the natural number they denote. -/
def digitsToNat (cs : List Char) : Nat :=
  cs.foldl (fun n c => n * 10 + (c.toNat - 48)) 0

/-- Python `str.strip()` (whitespace removal at both ends), defined on the
character list so that it evaluates inside the kernel. -/
def pyStrip (s : String) : String :=
  String.mk (((s.data.dropWhile Char.isWhitespace).reverse.dropWhile
    Char.isWhitespace).reverse)

/-- Python `str.lower()` (ASCII case folding suffices for this data). -/
def pyLower (s : String) : String :=
  String.mk (s.data.map Char.toLower)

/-- Python `float()` on a decimal literal string (sign, digits, optional
fractional part); `none` when the string does not parse — Python raises
`ValueError` there.  Exponents/infinities are not used by this data set. -/
def parseDecimal (s : String) : Option ℚ :=
  let cs := (pyStrip s).data
  let signAndRest : Bool × List Char :=
    match cs with
    | '-' :: rest => (true, rest)
    | '+' :: rest => (false, rest)
    | _ => (false, cs)
  let neg := signAndRest.1
  let cs1 := signAndRest.2
  let intPart := cs1.takeWhile Char.isDigit
  let rest1 := cs1.dropWhile Char.isDigit
  let val? : Option ℚ :=
    match rest1 with
    | [] => if intPart.isEmpty then none else some ((digitsToNat intPart : ℚ))
    | '.' :: rest2 =>
        let frac := rest2.takeWhile Char.isDigit
        let rest3 := rest2.dropWhile Char.isDigit
        if rest3.isEmpty then
          if intPart.isEmpty && frac.isEmpty then none
          else some ((digitsToNat intPart : ℚ) +
            (digitsToNat frac : ℚ) / (10 ^ frac.length : ℚ))
        else none
    | _ => none
  val?.map (fun v => if neg then -v else v)

/-- Python `float()` applied to a cell value; `.error` models the raised
`TypeError`/`ValueError`.  (`NaN` is filtered before every call site in the
source, so its non-rational image is modelled as an error and never reached.) -/
def pyFloat : PyVal → Except String ℚ
  | .vFloat q => .ok q
  | .vStr s =>
      match parseDecimal s with
      | some q => .ok q
      | none => .error ("could not convert string to float: " ++ s)
  | .vNone => .error "float() argument must not be None"
  | .vNaN => .error "nan has no exact rational value"

/-- Round-half-to-even to an integer, as Python `round` does on exact values. -/
def roundHalfEven (q : ℚ) : ℤ :=
  let f := ⌊q⌋
  let d := q - (f : ℚ)
  if d < 1/2 then f
  else if 1/2 < d then f + 1
  else if Even f then f else f + 1

/-- Python `round(x, 1)` on the exact rational reading of `x`. -/
def round1 (q : ℚ) : ℚ := (roundHalfEven (q * 10) : ℚ) / 10

theorem roundHalfEven_of_lt_half (q : ℚ) (z : ℤ) (hfl : ⌊q⌋ = z)
    (hd : q - z < 1/2) : roundHalfEven q = z := by
  unfold roundHalfEven
  rw [hfl, if_pos hd]

theorem roundHalfEven_of_half_lt (q : ℚ) (z : ℤ) (hfl : ⌊q⌋ = z)
    (hd : 1/2 < q - z) : roundHalfEven q = z + 1 := by
  unfold roundHalfEven
  rw [hfl, if_neg (by linarith), if_pos hd]

theorem roundHalfEven_of_half_even (q : ℚ) (z : ℤ) (hfl : ⌊q⌋ = z)
    (hd : q - z = 1/2) (he : Even z) : roundHalfEven q = z := by
  unfold roundHalfEven
  rw [hfl, if_neg (by rw [hd]; norm_num), if_neg (by rw [hd]; norm_num), if_pos he]

theorem roundHalfEven_of_half_odd (q : ℚ) (z : ℤ) (hfl : ⌊q⌋ = z)
    (hd : q - z = 1/2) (ho : ¬ Even z) : roundHalfEven q = z + 1 := by
  unfold roundHalfEven
  rw [hfl, if_neg (by rw [hd]; norm_num), if_neg (by rw [hd]; norm_num), if_neg ho]

theorem roundHalfEven_int (z : ℤ) : roundHalfEven (z : ℚ) = z := by
  refine roundHalfEven_of_lt_half _ z (by simp) (by norm_num)

/-- Python `str(round(x, 1))`: one fractional digit. -/
def renderRound1 (q : ℚ) : String :=
  let z := roundHalfEven (q * 10)
  (if z < 0 then "-" else "") ++ toString (z.natAbs / 10) ++ "." ++ toString (z.natAbs % 10)

/-- Python `f"{x:.3f}%"`: fixed three fractional digits plus a percent sign. -/
def pyFormat3 (q : ℚ) : String :=
  let z := roundHalfEven (q * 1000)
  (if z < 0 then "-" else "") ++ toString (z.natAbs / 1000) ++ "." ++
    padZeros (z.natAbs % 1000) 3 ++ "%"

/-! ### Insertion-ordered dictionaries (Python `dict` semantics) -/

/-- First-match association-list lookup (`dict` keys are unique, so this
agrees with Python lookup on every dictionary built below). -/
def alookup {β : Type} (m : List (String × β)) (k : String) : Option β :=
  match m with
  | [] => none
  | (k', v) :: rest => if k' = k then some v else alookup rest k

/-- `d[k] = v`: replace in place when the key exists, else append. -/
def dictInsert {β : Type} (m : List (String × β)) (k : String) (v : β) :
    List (String × β) :=
  match m with
  | [] => [(k, v)]
  | (k', v') :: rest =>
      if k' = k then (k', v) :: rest else (k', v') :: dictInsert rest k v

/-- `d.setdefault(k, dflt)` followed by an in-place mutation `f` of `d[k]`. -/
def dictUpsert {β : Type} (m : List (String × β)) (k : String) (dflt : β)
    (f : β → β) : List (String × β) :=
  match m with
  | [] => [(k, f dflt)]
  | (k', v') :: rest =>
      if k' = k then (k', f v') :: rest else (k', v') :: dictUpsert rest k dflt f

/-- Keys of a dictionary, in insertion order. -/
def dictKeys {β : Type} (m : List (String × β)) : List String := m.map Prod.fst

theorem alookup_dictInsert_self {β : Type} (m : List (String × β)) (k : String)
    (v : β) : alookup (dictInsert m k v) k = some v := by
  induction m with
  | nil => simp [dictInsert, alookup]
  | cons p rest ih =>
      obtain ⟨k', v'⟩ := p
      by_cases h : k' = k <;> simp [dictInsert, alookup, h, ih]

theorem alookup_dictInsert_ne {β : Type} (m : List (String × β)) (k k' : String)
    (v : β) (h : k ≠ k') : alookup (dictInsert m k v) k' = alookup m k' := by
  induction m with
  | nil => simp [dictInsert, alookup, h]
  | cons p rest ih =>
      obtain ⟨k₀, v₀⟩ := p
      by_cases h0 : k₀ = k
      · subst h0; simp [dictInsert, alookup, h]
      · by_cases h1 : k₀ = k'
        · subst h1; simp [dictInsert, alookup, h0]
        · simp [dictInsert, alookup, h0, h1, ih]

theorem alookup_dictUpsert_self {β : Type} (m : List (String × β)) (k : String)
    (dflt : β) (f : β → β) :
    alookup (dictUpsert m k dflt f) k = some (f ((alookup m k).getD dflt)) := by
  induction m with
  | nil => simp [dictUpsert, alookup]
  | cons p rest ih =>
      obtain ⟨k', v'⟩ := p
      by_cases h : k' = k <;> simp [dictUpsert, alookup, h, ih]

theorem alookup_dictUpsert_ne {β : Type} (m : List (String × β)) (k k' : String)
    (dflt : β) (f : β → β) (h : k ≠ k') :
    alookup (dictUpsert m k dflt f) k' = alookup m k' := by
  induction m with
  | nil => simp [dictUpsert, alookup, h]
  | cons p rest ih =>
      obtain ⟨k₀, v₀⟩ := p
      by_cases h0 : k₀ = k
      · subst h0; simp [dictUpsert, alookup, h]
      · by_cases h1 : k₀ = k'
        · subst h1; simp [dictUpsert, alookup, h0]
        · simp [dictUpsert, alookup, h0, h1, ih]

theorem dictKeys_dictInsert {β : Type} (m : List (String × β)) (k : String)
    (v : β) :
    dictKeys (dictInsert m k v) =
      if k ∈ dictKeys m then dictKeys m else dictKeys m ++ [k] := by
  induction m with
  | nil => simp [dictInsert, dictKeys]
  | cons p rest ih =>
      obtain ⟨k', v'⟩ := p
      by_cases h : k' = k
      · subst h; simp [dictInsert, dictKeys]
      · have h' : ¬ k = k' := fun hh => h hh.symm
        by_cases hm : k ∈ dictKeys rest
        · simp [dictKeys] at hm
          simp [dictInsert, dictKeys, h, h', hm, List.mem_cons] at ih ⊢
          simp [ih]
        · simp [dictKeys] at hm
          simp [dictInsert, dictKeys, h, h', hm, List.mem_cons] at ih ⊢
          simp [ih]

/-! ### EIU constants (`app/core/constants/eiu.py`) -/

/-- `EIUDataType.ACTUAL.value`. -/
def ACTUAL : String := "ACT"
/-- `EIUDataType.ESTIMATE.value`. -/
def ESTIMATE : String := "EST"
/-- `EIUDataType.FORECAST.value`. -/
def FORECAST : String := "FOR"
/-- `EIUDataType.MISSING.value` (the EIU en-dash sentinel). -/
def MISSING : String := "–"

/-- `EIU_CODES`: the fixed indicator catalog, in source order. -/
def EIU_CODES : List (String × String) :=
  [("PSBR", "Budget balance (% of GDP)"),
   ("DCPI", "Consumer prices (% change pa; av)"),
   ("CARA", "Current-account balance (% of GDP)"),
   ("BALC", "Current-account balance (US$)"),
   ("XRPD", "Exchange rate LCU:US$ (av)"),
   ("XPP1", "Export 1 (% share)"),
   ("XPP2", "Export 2 (% share)"),
   ("XPP3", "Export 3 (% share)"),
   ("XPP4", "Export 4 (% share)"),
   ("FRES", "Foreign-exchange reserves (US$)"),
   ("MEXP", "Goods: exports BOP (US$)"),
   ("MIMP", "Goods: imports BOP (US$)"),
   ("MPP1", "Import 1 (% share)"),
   ("MPP2", "Import 2 (% share)"),
   ("MPP3", "Import 3 (% share)"),
   ("PUDP", "Public debt  (% of GDP)"),
   ("DGDP", "Real GDP (% change pa)"),
   ("TDPY", "Total debt/GDP (%)"),
   ("BALM", "Trade balance (US$)")]

/-- `EIU_ESTIMATE_COLOR`. -/
def EIU_ESTIMATE_COLOR : String := "0000588D"

/-! ### Indicator extractor (`app/services/eiu_service.py`) -/

/-- `ExcelRowData` (`app/schemas/eiu_schemas.py`): one extracted sheet row.
Optional metadata mirrors the pydantic `Optional[str]` fields; `year_data`
is the insertion-ordered dict of year-column → classified string. -/
structure ExcelRowData where
  country_code : String
  series : Option String := none
  code : Option String := none
  currency : Option String := none
  units : Option String := none
  source : Option String := none
  definition : Option String := none
  note : Option String := none
  published : Option String := none
  year_data : List (String × String) := []
  deriving DecidableEq, Repr

/-- `_get_cell_color`: the font RGB when the fill pattern is solid, else
`None`.  A cell's formatting is modelled as the pair (solid-fill?, rgb). -/
def getCellColor (patternSolid : Bool) (fontRgb : Option String) : Option String :=
  if patternSolid then fontRgb else none

/-- The year-column branch of `_create_excel_row_from_sheet_data`
(lines 130–142): classify one year cell.  `cell_value = str(cell.value)`;
when that string is non-empty and not the sentinel it is converted with
`float` (which raises on non-numeric strings, including the `"None"`
rendering of a blank cell), rounded to one decimal and tagged `EST`/`ACT`
by color; otherwise the cell is the bare `MISSING` token. -/
def classifyYearCell (v : PyVal) (color : Option String) : Except String String :=
  let cv := pyStrOf v
  if cv ≠ "" ∧ cv ≠ MISSING then
    match pyFloat (.vStr cv) with
    | .error e => .error e
    | .ok q =>
        if color = some EIU_ESTIMATE_COLOR then
          .ok (ESTIMATE ++ "|" ++ renderRound1 q)
        else
          .ok (ACTUAL ++ "|" ++ renderRound1 q)
  else
    .ok MISSING

/-- `_create_default_excel_row`: the synthesized record for a catalog code
absent from the sheet — empty metadata, every discovered year column
`MISSING`. -/
def createDefaultExcelRow (code : String) (country_code : String)
    (series : String) (year_columns : List String) : ExcelRowData :=
  { country_code := country_code
    code := some code
    series := some series
    currency := some ""
    units := some ""
    source := some ""
    definition := some ""
    note := some ""
    published := some ""
    year_data := year_columns.map (fun y => (y, MISSING)) }

/-- The retention guard of `process_data` (line 241):
`excel_row.code and excel_row.code in list(EIU_CODES.keys())`. -/
def rowRetained (r : ExcelRowData) : Bool :=
  match r.code with
  | none => false
  | some c => c ≠ "" && (EIU_CODES.map Prod.fst).contains c

/-- `process_data` lines 230–242: fold the sheet's data rows into the
per-code dict, later row with the same code overwriting the earlier. -/
def buildSheetData (rows : List ExcelRowData) : List (String × ExcelRowData) :=
  rows.foldl
    (fun d r =>
      match r.code with
      | none => d
      | some c => if rowRetained r then dictInsert d c r else d)
    []

/-- `process_data` lines 245–249: append a default record for every catalog
code not yet present, in catalog order. -/
def addDefaultRows (d : List (String × ExcelRowData)) (sheetName : String)
    (year_columns : List String) : List (String × ExcelRowData) :=
  EIU_CODES.foldl
    (fun d cs =>
      if (alookup d cs.1).isSome then d
      else d ++ [(cs.1, createDefaultExcelRow cs.1 sheetName cs.2 year_columns)])
    d

/-- One sheet's contribution to `all_excel_rows`
(`sheet_data_by_code.values()`). -/
def processSheet (rows : List ExcelRowData) (sheetName : String)
    (year_columns : List String) : List ExcelRowData :=
  (addDefaultRows (buildSheetData rows) sheetName year_columns).map Prod.snd

/-! ### Support lemmas for the per-sheet dictionary fold -/

theorem alookup_isSome_iff {β : Type} (m : List (String × β)) (k : String) :
    (alookup m k).isSome = true ↔ k ∈ dictKeys m := by
  induction m with
  | nil => simp [alookup, dictKeys]
  | cons p rest ih =>
      obtain ⟨k', v'⟩ := p
      by_cases h : k' = k
      · subst h; simp [alookup, dictKeys]
      · have h' : ¬ k = k' := fun hh => h hh.symm
        simp [alookup, dictKeys, h, h'] at ih ⊢
        exact ih

theorem alookup_append_left {β : Type} (m m' : List (String × β)) (k : String)
    (v : β) (h : alookup m k = some v) : alookup (m ++ m') k = some v := by
  induction m with
  | nil => simp [alookup] at h
  | cons p rest ih =>
      obtain ⟨k', v'⟩ := p
      by_cases hk : k' = k
      · simp [alookup, hk] at h ⊢; exact h
      · simp [alookup, hk] at h ⊢; exact ih h

theorem alookup_append_right {β : Type} (m m' : List (String × β)) (k : String)
    (h : k ∉ dictKeys m) : alookup (m ++ m') k = alookup m' k := by
  induction m with
  | nil => simp
  | cons p rest ih =>
      obtain ⟨k', v'⟩ := p
      simp only [dictKeys, List.map_cons, List.mem_cons, not_or] at h
      have hne : ¬ k' = k := fun hh => h.1 hh.symm
      have htail : k ∉ dictKeys rest := by
        simpa [dictKeys] using h.2
      simp only [List.cons_append, alookup, hne, if_false]
      exact ih htail

theorem mem_dictInsert {β : Type} (m : List (String × β)) (k k' : String)
    (v v' : β) (h : (k, v) ∈ dictInsert m k' v') :
    (k, v) ∈ m ∨ (k = k' ∧ v = v') := by
  induction m with
  | nil => simp [dictInsert] at h; tauto
  | cons p rest ih =>
      obtain ⟨k₀, v₀⟩ := p
      by_cases h0 : k₀ = k'
      · subst h0
        simp [dictInsert] at h
        rcases h with h | h
        · exact .inr ⟨h.1.symm ▸ rfl, h.2⟩
        · exact .inl (by simp [h])
      · simp [dictInsert, h0] at h
        rcases h with h | h
        · exact .inl (by simp [h])
        · rcases ih h with h' | h'
          · exact .inl (by simp [h'])
          · exact .inr h'

/-- The step function folded by `buildSheetData`. -/
def buildStep (d : List (String × ExcelRowData)) (r : ExcelRowData) :
    List (String × ExcelRowData) :=
  match r.code with
  | none => d
  | some c => if rowRetained r then dictInsert d c r else d

theorem buildSheetData_eq_foldl (rows : List ExcelRowData) :
    buildSheetData rows = rows.foldl buildStep [] := rfl

/-- The fixed catalog keys. -/
def catalogKeys : List String := EIU_CODES.map Prod.fst

theorem catalogKeys_nodup : catalogKeys.Nodup := by decide

theorem buildStep_invariant (d : List (String × ExcelRowData))
    (r : ExcelRowData)
    (h : (dictKeys d).Nodup ∧ ∀ k ∈ dictKeys d, k ∈ catalogKeys) :
    (dictKeys (buildStep d r)).Nodup ∧
      ∀ k ∈ dictKeys (buildStep d r), k ∈ catalogKeys := by
  unfold buildStep
  match hc : r.code with
  | none => exact h
  | some c =>
      by_cases hr : rowRetained r
      · have hcat : c ∈ catalogKeys := by
          unfold rowRetained at hr
          rw [hc] at hr
          simp only [Bool.and_eq_true] at hr
          exact List.mem_of_elem_eq_true hr.2
        simp only [hr, if_true]
        rw [dictKeys_dictInsert]
        by_cases hm : c ∈ dictKeys d
        · simp only [hm, if_true]
          exact h
        · simp only [hm, if_false]
          refine ⟨?_, ?_⟩
          · simp [List.nodup_append, h.1, hm]
          · intro k hk
            rcases List.mem_append.1 hk with hk | hk
            · exact h.2 k hk
            · simp at hk
              exact hk ▸ hcat
      · simp only [hr, if_false]
        exact h

theorem buildSheetData_go_invariant (rows : List ExcelRowData)
    (d : List (String × ExcelRowData))
    (h : (dictKeys d).Nodup ∧ ∀ k ∈ dictKeys d, k ∈ catalogKeys) :
    (dictKeys (rows.foldl buildStep d)).Nodup ∧
      ∀ k ∈ dictKeys (rows.foldl buildStep d), k ∈ catalogKeys := by
  induction rows generalizing d with
  | nil => exact h
  | cons r rest ih => exact ih _ (buildStep_invariant d r h)

theorem buildSheetData_keys_nodup (rows : List ExcelRowData) :
    (dictKeys (buildSheetData rows)).Nodup :=
  (buildSheetData_go_invariant rows [] (by simp [dictKeys])).1

theorem buildSheetData_keys_subset (rows : List ExcelRowData) :
    ∀ k ∈ dictKeys (buildSheetData rows), k ∈ catalogKeys :=
  (buildSheetData_go_invariant rows [] (by simp [dictKeys])).2

theorem buildStep_mem (S : List ExcelRowData) (d : List (String × ExcelRowData))
    (r : ExcelRowData) (hr : r ∈ S)
    (hd : ∀ p ∈ d, p.2.code = some p.1 ∧ rowRetained p.2 = true ∧ p.2 ∈ S) :
    ∀ p ∈ buildStep d r,
      p.2.code = some p.1 ∧ rowRetained p.2 = true ∧ p.2 ∈ S := by
  intro p hp
  unfold buildStep at hp
  match hc : r.code with
  | none => rw [hc] at hp; exact hd p hp
  | some c =>
      rw [hc] at hp
      by_cases hret : rowRetained r = true
      · simp only [hret, if_true] at hp
        obtain ⟨k, v⟩ := p
        rcases mem_dictInsert d k c v r hp with h | h
        · exact hd _ h
        · refine ⟨?_, ?_, ?_⟩
          · simp only [h.2, h.1, hc]
          · simp only [h.2, hret]
          · simp only [h.2, hr]
      · simp only [hret, if_false] at hp
        exact hd p hp

theorem buildSheetData_go_mem (S : List ExcelRowData) (rows : List ExcelRowData)
    (d : List (String × ExcelRowData)) (hrows : ∀ r ∈ rows, r ∈ S)
    (hd : ∀ p ∈ d, p.2.code = some p.1 ∧ rowRetained p.2 = true ∧ p.2 ∈ S) :
    ∀ p ∈ rows.foldl buildStep d,
      p.2.code = some p.1 ∧ rowRetained p.2 = true ∧ p.2 ∈ S := by
  induction rows generalizing d with
  | nil => simpa using hd
  | cons r rest ih =>
      simp only [List.foldl_cons]
      exact ih _ (fun r' h' => hrows r' (List.mem_cons_of_mem _ h'))
        (buildStep_mem S d r (hrows r (List.mem_cons_self _ _)) hd)

theorem buildSheetData_mem (rows : List ExcelRowData) :
    ∀ p ∈ buildSheetData rows,
      p.2.code = some p.1 ∧ rowRetained p.2 = true ∧ p.2 ∈ rows :=
  buildSheetData_go_mem rows rows [] (fun _ h => h) (by simp)

/-- A key of the extracted dict always comes from some row carrying it. -/
theorem buildSheetData_keys_of_mem (rows : List ExcelRowData) (c : String)
    (h : c ∈ dictKeys (buildSheetData rows)) : ∃ r ∈ rows, r.code = some c := by
  unfold dictKeys at h
  rcases List.mem_map.1 h with ⟨p, hp, hfst⟩
  rcases buildSheetData_mem rows p hp with ⟨hcode, _, hmem⟩
  exact ⟨p.2, hmem, hfst ▸ hcode⟩

/-! ### The default-synthesis fold (`process_data` lines 245–249) -/

/-- `addDefaultRows` with the catalog generalized, for induction. -/
def addDefaultsGo (L : List (String × String)) (d : List (String × ExcelRowData))
    (sheetName : String) (year_columns : List String) :
    List (String × ExcelRowData) :=
  L.foldl
    (fun d cs =>
      if (alookup d cs.1).isSome then d
      else d ++ [(cs.1, createDefaultExcelRow cs.1 sheetName cs.2 year_columns)])
    d

theorem addDefaultRows_eq_go (d : List (String × ExcelRowData)) (n : String)
    (yc : List String) : addDefaultRows d n yc = addDefaultsGo EIU_CODES d n yc :=
  rfl

theorem addDefaultsGo_keys (L : List (String × String))
    (d : List (String × ExcelRowData)) (n : String) (yc : List String)
    (hL : (L.map Prod.fst).Nodup) :
    dictKeys (addDefaultsGo L d n yc) =
      dictKeys d ++ (L.map Prod.fst).filter (fun c => ¬ c ∈ dictKeys d) := by
  induction L generalizing d with
  | nil => simp [addDefaultsGo]
  | cons cs rest ih =>
      simp only [List.map_cons, List.nodup_cons] at hL
      by_cases hm : cs.1 ∈ dictKeys d
      · have hsome : (alookup d cs.1).isSome = true :=
          (alookup_isSome_iff d cs.1).2 hm
        simp only [addDefaultsGo, List.foldl_cons, hsome, if_true]
        rw [show List.foldl _ d rest = addDefaultsGo rest d n yc from rfl,
          ih d hL.2]
        simp [List.filter_cons, hm]
      · have hnone : ¬ (alookup d cs.1).isSome = true := fun hh =>
          hm ((alookup_isSome_iff d cs.1).1 hh)
        simp only [addDefaultsGo, List.foldl_cons]
        rw [if_neg hnone]
        rw [show List.foldl _ _ rest = addDefaultsGo rest
          (d ++ [(cs.1, createDefaultExcelRow cs.1 n cs.2 yc)]) n yc from rfl,
          ih _ hL.2]
        have hkeys : dictKeys (d ++ [(cs.1, createDefaultExcelRow cs.1 n cs.2 yc)]) =
            dictKeys d ++ [cs.1] := by simp [dictKeys]
        rw [hkeys]
        have hfilter :
            (rest.map Prod.fst).filter (fun c => ¬ c ∈ dictKeys d ++ [cs.1]) =
            (rest.map Prod.fst).filter (fun c => ¬ c ∈ dictKeys d) := by
          apply List.filter_congr
          intro x hx
          have hne : x ≠ cs.1 := fun hh => hL.1 (hh ▸ hx)
          simp [List.mem_append, hne]
        rw [hfilter]
        simp [List.filter_cons, hm]

theorem addDefaultsGo_lookup_preserved (L : List (String × String))
    (d : List (String × ExcelRowData)) (n : String) (yc : List String)
    (c : String) (v : ExcelRowData) (h : alookup d c = some v) :
    alookup (addDefaultsGo L d n yc) c = some v := by
  induction L generalizing d with
  | nil => exact h
  | cons cs rest ih =>
      simp only [addDefaultsGo, List.foldl_cons]
      by_cases hm : (alookup d cs.1).isSome = true
      · simp only [hm, if_true]
        exact ih d h
      · simp only [hm, if_false]
        exact ih _ (alookup_append_left _ _ _ _ h)

theorem addDefaultsGo_lookup_new (L : List (String × String))
    (d : List (String × ExcelRowData)) (n : String) (yc : List String)
    (c : String) (s : String) (hmem : (c, s) ∈ L)
    (hL : (L.map Prod.fst).Nodup) (hc : ¬ c ∈ dictKeys d) :
    alookup (addDefaultsGo L d n yc) c =
      some (createDefaultExcelRow c n s yc) := by
  induction L generalizing d with
  | nil => simp at hmem
  | cons cs rest ih =>
      simp only [List.map_cons, List.nodup_cons] at hL
      rcases List.mem_cons.1 hmem with hhead | htail
      · subst hhead
        have hnone : ¬ (alookup d c).isSome = true := fun hh =>
          hc ((alookup_isSome_iff d c).1 hh)
        simp only [addDefaultsGo, List.foldl_cons]
        rw [if_neg hnone]
        refine addDefaultsGo_lookup_preserved rest _ n yc c _ ?_
        rw [alookup_append_right d _ c hc]
        simp [alookup]
      · have hcrest : c ∈ rest.map Prod.fst :=
          List.mem_map.2 ⟨(c, s), htail, rfl⟩
        have hne : cs.1 ≠ c := fun hh => hL.1 (hh ▸ hcrest)
        simp only [addDefaultsGo, List.foldl_cons]
        by_cases hm : (alookup d cs.1).isSome = true
        · rw [if_pos hm]
          exact ih d htail hL.2 hc
        · rw [if_neg hm]
          refine ih _ htail hL.2 ?_
          intro hcin
          simp only [dictKeys, List.map_append, List.mem_append] at hcin
          rcases hcin with h1 | h1
          · exact hc (by simpa [dictKeys] using h1)
          · simp at h1
            exact hne h1.symm

theorem addDefaultsGo_mem (L : List (String × String))
    (d : List (String × ExcelRowData)) (n : String) (yc : List String) :
    ∀ p ∈ addDefaultsGo L d n yc,
      p ∈ d ∨ ∃ cs ∈ L, p.2 = createDefaultExcelRow cs.1 n cs.2 yc := by
  induction L generalizing d with
  | nil => intro p hp; exact .inl hp
  | cons cs rest ih =>
      intro p hp
      simp only [addDefaultsGo, List.foldl_cons] at hp
      by_cases hm : (alookup d cs.1).isSome = true
      · simp only [hm, if_true] at hp
        rcases ih d p hp with h | ⟨cs', h1, h2⟩
        · exact .inl h
        · exact .inr ⟨cs', List.mem_cons_of_mem _ h1, h2⟩
      · simp only [hm, if_false] at hp
        rcases ih _ p hp with h | ⟨cs', h1, h2⟩
        · rcases List.mem_append.1 h with h1 | h1
          · exact .inl h1
          · simp at h1
            exact .inr ⟨cs, List.mem_cons_self _ _, by simp [h1]⟩
        · exact .inr ⟨cs', List.mem_cons_of_mem _ h1, h2⟩

theorem alookup_map_missing (yc : List String) (y : String) (h : y ∈ yc) :
    alookup (yc.map (fun y => (y, MISSING))) y = some MISSING := by
  induction yc with
  | nil => simp at h
  | cons y0 rest ih =>
      by_cases h0 : y0 = y
      · simp [alookup, h0]
      · rcases List.mem_cons.1 h with h1 | h1
        · exact absurd h1.symm h0
        · simp [alookup, h0, ih h1]

theorem processSheet_keys_perm (rows : List ExcelRowData) (n : String)
    (yc : List String) :
    (dictKeys (addDefaultRows (buildSheetData rows) n yc)).Perm catalogKeys := by
  rw [addDefaultRows_eq_go, addDefaultsGo_keys EIU_CODES _ n yc catalogKeys_nodup]
  set kb := dictKeys (buildSheetData rows) with hkb
  have hnodupB : kb.Nodup := buildSheetData_keys_nodup rows
  have hsub : ∀ k ∈ kb, k ∈ catalogKeys := buildSheetData_keys_subset rows
  apply (List.perm_ext_iff_of_nodup ?_ catalogKeys_nodup).2
  · intro a
    constructor
    · intro ha
      rcases List.mem_append.1 ha with h | h
      · exact hsub a h
      · exact (List.mem_filter.1 h).1
    · intro ha
      by_cases hin : a ∈ kb
      · exact List.mem_append.2 (.inl hin)
      · refine List.mem_append.2 (.inr ?_)
        refine List.mem_filter.2 ⟨ha, ?_⟩
        simpa using hin
  · refine List.Nodup.append hnodupB (List.Nodup.filter _ catalogKeys_nodup) ?_
    intro a haB haF
    have : ¬ a ∈ kb := by simpa using (List.mem_filter.1 haF).2
    exact this haB

/-- Claim C1 — For every indicator sheet whose codes all lie in the fixed
catalog `EIU_CODES` (in fact for *any* sheet), the per-sheet output of
`process_data` contains exactly `|EIU_CODES|` records for that sheet's
country, one per catalog code; each catalog code carried by no sheet row is
synthesized by `_create_default_excel_row` with empty metadata and every
discovered year column classified `MISSING`; and every output record is
either a retained sheet row whose code lies in the catalog, or such a
default — so rows with a non-catalog code contribute no record. -/
theorem claim_C1_catalog_completeness (rows : List ExcelRowData)
    (sheetName : String) (yearCols : List String) :
    (dictKeys (addDefaultRows (buildSheetData rows) sheetName yearCols)).Perm
        catalogKeys ∧
    (processSheet rows sheetName yearCols).length = EIU_CODES.length ∧
    (∀ c s, (c, s) ∈ EIU_CODES → (∀ r ∈ rows, r.code ≠ some c) →
      alookup (addDefaultRows (buildSheetData rows) sheetName yearCols) c =
        some (createDefaultExcelRow c sheetName s yearCols)) ∧
    (∀ c s y, y ∈ yearCols →
      alookup (createDefaultExcelRow c sheetName s yearCols).year_data y =
        some MISSING) ∧
    (∀ c s, (createDefaultExcelRow c sheetName s yearCols).currency = some "" ∧
      (createDefaultExcelRow c sheetName s yearCols).units = some "" ∧
      (createDefaultExcelRow c sheetName s yearCols).source = some "" ∧
      (createDefaultExcelRow c sheetName s yearCols).note = some "") ∧
    (∀ rec ∈ processSheet rows sheetName yearCols,
      (rec ∈ rows ∧ rowRetained rec = true) ∨
        ∃ cs ∈ EIU_CODES,
          rec = createDefaultExcelRow cs.1 sheetName cs.2 yearCols) ∧
    ((∀ r ∈ rows, r.country_code = sheetName) →
      ∀ rec ∈ processSheet rows sheetName yearCols,
        rec.country_code = sheetName) := by
  refine ⟨processSheet_keys_perm rows sheetName yearCols, ?_, ?_, ?_, ?_, ?_, ?_⟩
  · have hlen := (processSheet_keys_perm rows sheetName yearCols).length_eq
    simp only [dictKeys, List.length_map, catalogKeys] at hlen
    simpa [processSheet] using hlen
  · intro c s hmem habs
    have hnotin : ¬ c ∈ dictKeys (buildSheetData rows) := by
      intro hin
      rcases buildSheetData_keys_of_mem rows c hin with ⟨r, hr, hcode⟩
      exact habs r hr hcode
    rw [addDefaultRows_eq_go]
    exact addDefaultsGo_lookup_new EIU_CODES _ sheetName yearCols c s hmem
      catalogKeys_nodup hnotin
  · intro c s y hy
    simpa [createDefaultExcelRow] using alookup_map_missing yearCols y hy
  · intro c s
    simp [createDefaultExcelRow]
  · intro rec hrec
    rcases List.mem_map.1 hrec with ⟨p, hp, hsnd⟩
    rw [addDefaultRows_eq_go] at hp
    rcases addDefaultsGo_mem EIU_CODES _ sheetName yearCols p hp with h | ⟨cs, h1, h2⟩
    · rcases buildSheetData_mem rows p h with ⟨_, hret, hmemr⟩
      exact .inl ⟨hsnd ▸ hmemr, hsnd ▸ hret⟩
    · exact .inr ⟨cs, h1, hsnd ▸ h2⟩
  · intro hcountry rec hrec
    rcases List.mem_map.1 hrec with ⟨p, hp, hsnd⟩
    rw [addDefaultRows_eq_go] at hp
    rcases addDefaultsGo_mem EIU_CODES _ sheetName yearCols p hp with h | ⟨cs, _, h2⟩
    · rcases buildSheetData_mem rows p h with ⟨_, _, hmemr⟩
      exact hsnd ▸ hcountry p.2 hmemr
    · rw [← hsnd, h2]
      rfl

/-- Witness for C1 at a concrete sheet: a sheet with no rows at all still
yields all 19 catalog records, `PSBR` synthesized as the all-Missing
default. -/
theorem claim_C1_catalog_completeness_witness :
    (processSheet [] "KR" ["2023"]).length = EIU_CODES.length ∧
    alookup (addDefaultRows (buildSheetData []) "KR" ["2023"]) "PSBR" =
      some (createDefaultExcelRow "PSBR" "KR" "Budget balance (% of GDP)"
        ["2023"]) :=
  ⟨(claim_C1_catalog_completeness [] "KR" ["2023"]).2.1,
   (claim_C1_catalog_completeness [] "KR" ["2023"]).2.2.1 "PSBR"
     "Budget balance (% of GDP)" (by decide)
     (fun r hr => absurd hr (List.not_mem_nil r))⟩

/-! ### Claim C5 — year-cell classification -/

/-- Claim C5, counterexample — the claim asserts that an empty cell is
classified `Missing` and "never causes an error"; but a blank cell's raw
value is Python `None`, `str(None)` is the non-empty, non-sentinel string
`"None"`, and `float("None")` raises: the classifier errors instead of
returning `Missing`. -/
theorem claim_C5_cell_classification_counterexample :
    classifyYearCell PyVal.vNone none =
      .error "could not convert string to float: None" ∧
    classifyYearCell PyVal.vNone none ≠ .ok MISSING := by
  constructor
  · rfl
  · intro h
    simp [show classifyYearCell PyVal.vNone none =
      .error "could not convert string to float: None" from rfl] at h

/-- Claim C5 (amended) — a year cell whose raw value *stringifies* to the
empty string or to the sentinel `"–"` is classified `Missing` with no
payload; otherwise the string is converted with `float` (raising on
non-numeric strings, including the `"None"` rendering of a truly empty
cell) and, on success, the value is rounded to one decimal place and
serialized `"{kind}|{value}"`, with kind `EST` exactly when the cell's
formatting color equals the fixed estimate signature and `ACT` otherwise. -/
theorem claim_C5_cell_classification (v : PyVal) (color : Option String) :
    (pyStrOf v = "" ∨ pyStrOf v = MISSING →
      classifyYearCell v color = .ok MISSING) ∧
    (∀ q, pyStrOf v ≠ "" → pyStrOf v ≠ MISSING →
      parseDecimal (pyStrOf v) = some q →
      classifyYearCell v color =
        .ok ((if color = some EIU_ESTIMATE_COLOR then ESTIMATE else ACTUAL) ++
          "|" ++ renderRound1 q)) ∧
    (pyStrOf v ≠ "" → pyStrOf v ≠ MISSING → parseDecimal (pyStrOf v) = none →
      classifyYearCell v color =
        .error ("could not convert string to float: " ++ pyStrOf v)) := by
  refine ⟨?_, ?_, ?_⟩
  · intro h
    unfold classifyYearCell
    rcases h with h | h <;> rw [h] <;> simp [MISSING]
  · intro q h1 h2 hq
    unfold classifyYearCell
    rw [if_pos ⟨h1, h2⟩]
    simp only [pyFloat, hq]
    by_cases hc : color = some EIU_ESTIMATE_COLOR <;> simp [hc]
  · intro h1 h2 hq
    unfold classifyYearCell
    rw [if_pos ⟨h1, h2⟩]
    simp only [pyFloat, hq]

/-- Witness for C5 at concrete cells: `"3.25"` with the estimate color
rounds half-to-even to `"EST|3.2"`, and the sentinel cell is `Missing`. -/
theorem claim_C5_cell_classification_witness :
    classifyYearCell (.vStr "3.25") (some "0000588D") = .ok "EST|3.2" ∧
    classifyYearCell (.vStr "–") none = .ok MISSING := by
  constructor
  · have hparse : parseDecimal (pyStrOf (.vStr "3.25")) =
        some ((325 : ℚ) / (10 ^ 2 : ℚ)) := by
      rw [show parseDecimal (pyStrOf (.vStr "3.25")) =
        some ((3 : ℚ) + (25 : ℚ) / (10 ^ 2 : ℚ)) from rfl]
      norm_num
    have h := (claim_C5_cell_classification (.vStr "3.25")
      (some "0000588D")).2.1 ((325 : ℚ) / (10 ^ 2 : ℚ))
      (by decide) (by decide) hparse
    rw [h]
    have hz : roundHalfEven ((325 : ℚ) / (10 ^ 2 : ℚ) * 10) = 32 := by
      refine roundHalfEven_of_half_even _ 32 ?_ (by norm_num) (by decide)
      rw [Int.floor_eq_iff]
      norm_num
    unfold renderRound1
    rw [hz]
    rfl
  · exact (claim_C5_cell_classification (.vStr "–") none).1 (.inr rfl)

/-! ### Claim C6 — header locating (`excel_utils._find_header_idx` and
`eiu_service._find_header_row`) -/

/-- The row-match predicate of `_find_header_idx`: the row is long enough
and each of the first `len(header_cols)` cells, stripped, equals the
expected name position-for-position. -/
def headerRowMatches (row : List PyVal) (header_cols : List String) : Bool :=
  decide (row.length ≥ header_cols.length) &&
    header_cols.enum.all
      (fun ic => pyStrip (pyStrOf ((row.get? ic.1).getD .vNone)) == ic.2)

/-- `excel_utils._find_header_idx`: scan `range(min(20, len(df)))`, i.e. the
first 20 rows, returning the first 0-based index whose row matches. -/
def findHeaderIdx (df : List (List PyVal)) (header_cols : List String) :
    Option Nat :=
  (List.range (min 20 df.length)).find?
    (fun idx => headerRowMatches ((df.get? idx).getD []) header_cols)

/-- 1-based cell access `sheet.cell(row=r, column=c).value` on a sheet
modelled as a row list; out-of-range cells read as `None`, as in openpyxl. -/
def cellValue (sheet : List (List PyVal)) (r c : Nat) : PyVal :=
  ((sheet.get? (r - 1)).bind (fun row => row.get? (c - 1))).getD .vNone

/-- The marker test of `eiu_service._find_header_row`:
`series_cell == "Series" and code_cell == "Code"`. -/
def seriesCodeMarker (sheet : List (List PyVal)) (r : Nat) : Bool :=
  cellValue sheet r 1 == .vStr "Series" && cellValue sheet r 2 == .vStr "Code"

/-- `eiu_service._find_header_row`: `for row_idx in range(1, 20)` — note the
loop runs over rows 1..19 only. -/
def findHeaderRow (sheet : List (List PyVal)) : Option Nat :=
  (List.range' 1 19).find? (fun r => seriesCodeMarker sheet r)

/-- `find?` over `range' s n` returns the least satisfying index. -/
theorem range'_find?_eq_some (p : Nat → Bool) (s n k : Nat) (h1 : s ≤ k)
    (h2 : k < s + n) (hk : p k = true)
    (hmin : ∀ j, s ≤ j → j < k → p j = false) :
    (List.range' s n).find? p = some k := by
  induction n generalizing s with
  | zero => omega
  | succ n ih =>
      rw [List.range'_succ s n 1]
      by_cases hs : s = k
      · subst hs
        simp [List.find?_cons, hk]
      · have hlt : s < k := lt_of_le_of_ne h1 hs
        have hps : p s = false := hmin s le_rfl hlt
        simp only [List.find?_cons, hps]
        exact ih (s + 1) hlt (by omega) (fun j hj1 hj2 => hmin j (by omega) hj2)

theorem range'_find?_eq_none (p : Nat → Bool) (s n : Nat) :
    (List.range' s n).find? p = none ↔
      ∀ j, s ≤ j → j < s + n → p j = false := by
  rw [List.find?_eq_none]
  constructor
  · intro h j hj1 hj2
    simpa using h j (List.mem_range'_1.2 ⟨hj1, hj2⟩)
  · intro h x hx
    rcases List.mem_range'_1.1 hx with ⟨h1, h2⟩
    simp [h x h1 h2]

/-- Claim C6, counterexample — the claim states that both header-locating
routines scan all of the first 20 rows, so that a header sitting in the
20th row is found.  For the `Series`/`Code` marker search this is false:
`range(1, 20)` visits rows 1..19 only, and a sheet whose marker sits in
physical row 20 is reported "not found", while the generic locator
(`range(min(20, len(df)))`) does find a 20th-row header at index 19. -/
theorem claim_C6_header_scan_counterexample :
    (findHeaderRow
      (List.replicate 19 ([] : List PyVal) ++
        [[PyVal.vStr "Series", PyVal.vStr "Code"]]) = none) ∧
    (seriesCodeMarker
      (List.replicate 19 ([] : List PyVal) ++
        [[PyVal.vStr "Series", PyVal.vStr "Code"]]) 20 = true) ∧
    (findHeaderIdx
      (List.replicate 19 ([] : List PyVal) ++
        [[PyVal.vStr "Series", PyVal.vStr "Code"]]) ["Series", "Code"] =
      some 19) := by
  refine ⟨by decide, by decide, by decide⟩

/-- Claim C6 (amended) — the generic `HeaderSpec` locator scans the first
20 rows (indices `0..min 20 len − 1`) and returns the first match, so a
header in the 20th row (index 19) is found; the `Series`/`Code` marker
search scans physical rows 1..19 only and returns the first marker row,
reporting "not found" exactly when none of rows 1..19 carries the marker —
a marker in row 20 is missed. -/
theorem claim_C6_header_scan (df sheet : List (List PyVal))
    (header_cols : List String) (k r : Nat) :
    (k < min 20 df.length →
      headerRowMatches ((df.get? k).getD []) header_cols = true →
      (∀ j, j < k → headerRowMatches ((df.get? j).getD []) header_cols = false) →
      findHeaderIdx df header_cols = some k) ∧
    (findHeaderIdx df header_cols = none ↔
      ∀ j, j < min 20 df.length →
        headerRowMatches ((df.get? j).getD []) header_cols = false) ∧
    (1 ≤ r → r ≤ 19 → seriesCodeMarker sheet r = true →
      (∀ j, 1 ≤ j → j < r → seriesCodeMarker sheet j = false) →
      findHeaderRow sheet = some r) ∧
    (findHeaderRow sheet = none ↔
      ∀ j, 1 ≤ j → j ≤ 19 → seriesCodeMarker sheet j = false) := by
  refine ⟨?_, ?_, ?_, ?_⟩
  · intro hk hmatch hmin
    unfold findHeaderIdx
    rw [List.range_eq_range' (min 20 df.length)]
    exact range'_find?_eq_some _ 0 _ k (Nat.zero_le k) (by omega) hmatch
      (fun j _ hj => hmin j hj)
  · unfold findHeaderIdx
    rw [List.range_eq_range' (min 20 df.length), range'_find?_eq_none]
    constructor
    · intro h j hj; exact h j (Nat.zero_le j) (by omega)
    · intro h j _ hj; exact h j (by omega)
  · intro h1 h19 hmark hmin
    unfold findHeaderRow
    exact range'_find?_eq_some _ 1 19 r h1 (by omega) hmark hmin
  · unfold findHeaderRow
    rw [range'_find?_eq_none]
    constructor
    · intro h j hj1 hj19; exact h j hj1 (by omega)
    · intro h j hj1 hj20; exact h j hj1 (by omega)

/-- Witness for C6: a sheet with the marker in row 3 is found there, and a
20-row table with the header spec in its last row is found at index 19. -/
theorem claim_C6_header_scan_witness :
    findHeaderRow
      ([[], []] ++ [[PyVal.vStr "Series", PyVal.vStr "Code"]]) = some 3 ∧
    findHeaderIdx
      (List.replicate 19 ([] : List PyVal) ++
        [[PyVal.vStr "Geography", PyVal.vStr "Code"]])
      ["Geography", "Code"] = some 19 :=
  ⟨(claim_C6_header_scan []
      ([[], []] ++ [[PyVal.vStr "Series", PyVal.vStr "Code"]]) [] 0 3).2.2.1
      (by decide) (by decide) (by decide) (by decide),
   (claim_C6_header_scan
      (List.replicate 19 ([] : List PyVal) ++
        [[PyVal.vStr "Geography", PyVal.vStr "Code"]]) [] ["Geography", "Code"]
      19 0).1 (by decide) (by decide) (by decide)⟩

/-! ### Trade-partner extraction (`major_trade_partner_service.py`) -/

/-- `TradePartnerData` (`app/schemas/eiu_schemas.py`).  The extractor always
fills `country_code` with `str(...).strip()` and `partner_rate` with a float,
so those are total here. -/
structure TradePartnerData where
  country_code : String
  partner_name : Option String
  partner_rate : ℚ
  trade_type : String
  deriving DecidableEq, Repr

/-- The per-row tail of `_extract_raw_data` (lines 248–260): a rate that is
`None`, NaN, or the sentinel `"–"` is replaced by `0.0`; then `float()` is
applied (raising on any other non-numeric string) and a `TradePartnerData`
is appended.  The partner name extracted from the free-text definition by
`_extract_partner_from_definition` is taken as a parameter — its regex is
orthogonal to the rate handling claimed here. -/
def extractTradeRelation (trade_type : String) (country_code : PyVal)
    (partner_name : Option String) (rate : PyVal) :
    Except String TradePartnerData :=
  let rate_value :=
    if rate = .vNone ∨ pyIsNa rate = true ∨ rate = .vStr MISSING
    then .vFloat 0 else rate
  match pyFloat rate_value with
  | .error e => .error e
  | .ok q =>
      .ok { country_code := pyStrip (pyStrOf country_code)
            partner_name := partner_name
            partner_rate := q
            trade_type := trade_type }

/-- Claim C8, counterexample — the claim says an "otherwise non-numeric"
rate also collapses to 0.0 without error; but only `None`/NaN/`"–"` are
caught, and `float("12a")` raises, so no `TradeRelation` is emitted. -/
theorem claim_C8_rate_collapse_counterexample :
    extractTradeRelation "export" (.vStr "KR") none (.vStr "12a") =
      .error "could not convert string to float: 12a" := by rfl

/-- Claim C8 (amended) — a rate that is missing (`None`/NaN) or the
sentinel `"–"` collapses to rate `0.0` and a `TradeRelation` is still
emitted for the row; any other string is passed to `float()`, which
succeeds exactly on numeric strings (any other non-numeric rate raises
instead of collapsing). -/
theorem claim_C8_rate_collapse (trade_type : String) (country_code : PyVal)
    (partner_name : Option String) :
    (∀ rate, (rate = .vNone ∨ rate = .vNaN ∨ rate = .vStr MISSING) →
      extractTradeRelation trade_type country_code partner_name rate =
        .ok { country_code := pyStrip (pyStrOf country_code)
              partner_name := partner_name
              partner_rate := 0
              trade_type := trade_type }) ∧
    (∀ s q, s ≠ MISSING → parseDecimal s = some q →
      extractTradeRelation trade_type country_code partner_name (.vStr s) =
        .ok { country_code := pyStrip (pyStrOf country_code)
              partner_name := partner_name
              partner_rate := q
              trade_type := trade_type }) ∧
    (∀ s, s ≠ MISSING → parseDecimal s = none →
      extractTradeRelation trade_type country_code partner_name (.vStr s) =
        .error ("could not convert string to float: " ++ s)) := by
  refine ⟨?_, ?_, ?_⟩
  · intro rate h
    rcases h with h | h | h <;> subst h <;> rfl
  · intro s q hs hq
    unfold extractTradeRelation
    rw [if_neg (by simp only [MISSING] at hs; simp [pyIsNa, MISSING, hs])]
    simp [pyFloat, hq]
  · intro s hs hq
    unfold extractTradeRelation
    rw [if_neg (by simp only [MISSING] at hs; simp [pyIsNa, MISSING, hs])]
    simp [pyFloat, hq]

/-- Witness for C8: the sentinel collapses to a rate-0 relation and a
numeric string parses through. -/
theorem claim_C8_rate_collapse_witness :
    extractTradeRelation "export" (.vStr "KR") (some "china") (.vStr "–") =
      .ok { country_code := "KR", partner_name := some "china",
            partner_rate := 0, trade_type := "export" } ∧
    extractTradeRelation "import" (.vStr "DE") none (.vStr "12.5") =
      .ok { country_code := "DE", partner_name := none,
            partner_rate := (12 : ℚ) + (5 : ℚ) / (10 ^ 1 : ℚ),
            trade_type := "import" } :=
  ⟨(claim_C8_rate_collapse "export" (.vStr "KR") (some "china")).1
      (.vStr "–") (.inr (.inr rfl)),
   (claim_C8_rate_collapse "import" (.vStr "DE") none).2.1
      "12.5" ((12 : ℚ) + (5 : ℚ) / (10 ^ 1 : ℚ)) (by decide) rfl⟩

/-! ### Trade aggregation (`_aggregate_country_data`, lines 93–126) -/

/-- `CountryTradeData` (`app/schemas/eiu_schemas.py`). -/
structure CountryTradeData where
  country_code : String
  import_partners : List (String × ℚ)
  export_partners : List (String × ℚ)
  deriving DecidableEq, Repr

/-- One iteration of `_aggregate_country_data`'s loop: drop relations with
no partner name or rate ≤ 0; lower-case/strip the partner; group by the
stripped country code, appending to the direction's list. -/
def aggregateStep (d : List (String × CountryTradeData))
    (t : TradePartnerData) : List (String × CountryTradeData) :=
  match t.partner_name with
  | none => d
  | some pn =>
      if t.partner_rate ≤ 0 then d
      else
        let pn' := pyLower (pyStrip pn)
        let cc := pyStrip t.country_code
        dictUpsert d cc ⟨cc, [], []⟩
          (fun cd =>
            if t.trade_type = "export" then
              { cd with export_partners := cd.export_partners ++ [(pn', t.partner_rate)] }
            else
              { cd with import_partners := cd.import_partners ++ [(pn', t.partner_rate)] })

/-- `_aggregate_country_data`. -/
def aggregateCountryData (l : List TradePartnerData) :
    List (String × CountryTradeData) :=
  l.foldl aggregateStep []

/-- The export pairs contributed by one relation to country `c`. -/
def exportSel (c : String) (t : TradePartnerData) : Option (String × ℚ) :=
  match t.partner_name with
  | none => none
  | some pn =>
      if t.partner_rate ≤ 0 then none
      else if pyStrip t.country_code = c ∧ t.trade_type = "export" then
        some (pyLower (pyStrip pn), t.partner_rate)
      else none

/-- The import pairs contributed by one relation to country `c`. -/
def importSel (c : String) (t : TradePartnerData) : Option (String × ℚ) :=
  match t.partner_name with
  | none => none
  | some pn =>
      if t.partner_rate ≤ 0 then none
      else if pyStrip t.country_code = c ∧ ¬ t.trade_type = "export" then
        some (pyLower (pyStrip pn), t.partner_rate)
      else none

/-- The export-partner list aggregated for country `c`. -/
def exportsOf (d : List (String × CountryTradeData)) (c : String) :
    List (String × ℚ) :=
  ((alookup d c).map CountryTradeData.export_partners).getD []

/-- The import-partner list aggregated for country `c`. -/
def importsOf (d : List (String × CountryTradeData)) (c : String) :
    List (String × ℚ) :=
  ((alookup d c).map CountryTradeData.import_partners).getD []

theorem exportsOf_aggregateStep (d : List (String × CountryTradeData))
    (t : TradePartnerData) (c : String) :
    exportsOf (aggregateStep d t) c = exportsOf d c ++ (exportSel c t).toList := by
  cases hpn : t.partner_name with
  | none => simp [aggregateStep, exportSel, hpn]
  | some pn =>
      by_cases hr : t.partner_rate ≤ 0
      · simp [aggregateStep, exportSel, hpn, hr]
      · simp only [aggregateStep, exportSel, hpn]
        rw [if_neg hr, if_neg hr]
        by_cases hcc : pyStrip t.country_code = c
        · subst hcc
          by_cases htt : t.trade_type = "export"
          · rw [if_pos ⟨rfl, htt⟩]
            unfold exportsOf
            rw [alookup_dictUpsert_self]
            rw [if_pos htt]
            match halk : alookup d (pyStrip t.country_code) with
            | none => simp
            | some cd => simp
          · rw [if_neg (by simp [htt])]
            unfold exportsOf
            rw [alookup_dictUpsert_self]
            rw [if_neg htt]
            match halk : alookup d (pyStrip t.country_code) with
            | none => simp
            | some cd => simp
        · rw [if_neg (by simp [hcc])]
          unfold exportsOf
          rw [alookup_dictUpsert_ne _ _ _ _ _ hcc]
          simp

theorem importsOf_aggregateStep (d : List (String × CountryTradeData))
    (t : TradePartnerData) (c : String) :
    importsOf (aggregateStep d t) c = importsOf d c ++ (importSel c t).toList := by
  cases hpn : t.partner_name with
  | none => simp [aggregateStep, importSel, hpn]
  | some pn =>
      by_cases hr : t.partner_rate ≤ 0
      · simp [aggregateStep, importSel, hpn, hr]
      · simp only [aggregateStep, importSel, hpn]
        rw [if_neg hr, if_neg hr]
        by_cases hcc : pyStrip t.country_code = c
        · subst hcc
          by_cases htt : t.trade_type = "export"
          · rw [if_neg (by simp [htt])]
            unfold importsOf
            rw [alookup_dictUpsert_self]
            rw [if_pos htt]
            match halk : alookup d (pyStrip t.country_code) with
            | none => simp
            | some cd => simp
          · rw [if_pos ⟨rfl, htt⟩]
            unfold importsOf
            rw [alookup_dictUpsert_self]
            rw [if_neg htt]
            match halk : alookup d (pyStrip t.country_code) with
            | none => simp
            | some cd => simp
        · rw [if_neg (by simp [hcc])]
          unfold importsOf
          rw [alookup_dictUpsert_ne _ _ _ _ _ hcc]
          simp

theorem exportsOf_aggregate_go (l : List TradePartnerData)
    (d : List (String × CountryTradeData)) (c : String) :
    exportsOf (l.foldl aggregateStep d) c =
      exportsOf d c ++ l.filterMap (exportSel c) := by
  induction l generalizing d with
  | nil => simp
  | cons t rest ih =>
      simp only [List.foldl_cons, List.filterMap_cons]
      rw [ih (aggregateStep d t), exportsOf_aggregateStep]
      match h : exportSel c t with
      | none => simp
      | some x => simp

theorem importsOf_aggregate_go (l : List TradePartnerData)
    (d : List (String × CountryTradeData)) (c : String) :
    importsOf (l.foldl aggregateStep d) c =
      importsOf d c ++ l.filterMap (importSel c) := by
  induction l generalizing d with
  | nil => simp
  | cons t rest ih =>
      simp only [List.foldl_cons, List.filterMap_cons]
      rw [ih (aggregateStep d t), importsOf_aggregateStep]
      match h : importSel c t with
      | none => simp
      | some x => simp

/-- Claim C7 — the aggregation retains exactly the relations with a partner
name and rate > 0, lower-cases partner names, groups by country in
insertion order, and is permutation-invariant up to set equality: any
reordering of the input relations yields, for every country, the same
export-partner set and the same import-partner set of (partner, rate)
pairs. -/
theorem claim_C7_aggregation_order_invariance (l l' : List TradePartnerData)
    (hperm : l.Perm l') (c : String) :
    (exportsOf (aggregateCountryData l) c).toFinset =
      (exportsOf (aggregateCountryData l') c).toFinset ∧
    (importsOf (aggregateCountryData l) c).toFinset =
      (importsOf (aggregateCountryData l') c).toFinset ∧
    exportsOf (aggregateCountryData l) c = l.filterMap (exportSel c) ∧
    importsOf (aggregateCountryData l) c = l.filterMap (importSel c) := by
  have he : exportsOf (aggregateCountryData l) c = l.filterMap (exportSel c) := by
    unfold aggregateCountryData
    rw [exportsOf_aggregate_go]
    simp [exportsOf, alookup]
  have hi : importsOf (aggregateCountryData l) c = l.filterMap (importSel c) := by
    unfold aggregateCountryData
    rw [importsOf_aggregate_go]
    simp [importsOf, alookup]
  have he' : exportsOf (aggregateCountryData l') c = l'.filterMap (exportSel c) := by
    unfold aggregateCountryData
    rw [exportsOf_aggregate_go]
    simp [exportsOf, alookup]
  have hi' : importsOf (aggregateCountryData l') c = l'.filterMap (importSel c) := by
    unfold aggregateCountryData
    rw [importsOf_aggregate_go]
    simp [importsOf, alookup]
  refine ⟨?_, ?_, he, hi⟩
  · rw [he, he']
    apply Finset.ext
    intro x
    simp only [List.mem_toFinset]
    exact (hperm.filterMap (exportSel c)).mem_iff
  · rw [hi, hi']
    apply Finset.ext
    intro x
    simp only [List.mem_toFinset]
    exact (hperm.filterMap (importSel c)).mem_iff

/-- Witness for C7 at a concrete relation list and its reversal. -/
theorem claim_C7_aggregation_order_invariance_witness :
    (exportsOf (aggregateCountryData
      [⟨"FR", some "Germany", 40, "export"⟩,
       ⟨"FR", some "Spain", 60, "import"⟩]) "FR").toFinset =
    (exportsOf (aggregateCountryData
      [⟨"FR", some "Spain", 60, "import"⟩,
       ⟨"FR", some "Germany", 40, "export"⟩]) "FR").toFinset :=
  (claim_C7_aggregation_order_invariance
    [⟨"FR", some "Germany", 40, "export"⟩,
     ⟨"FR", some "Spain", 60, "import"⟩]
    [⟨"FR", some "Spain", 60, "import"⟩,
     ⟨"FR", some "Germany", 40, "export"⟩]
    (List.Perm.swap _ _ _) "FR").1

/-! ### Integrated dataframe (`_create_integrated_dataframe`, lines 129–197) -/

/-- One output row of the integrated trade dataframe.  Fields that the code
conditionally omits from the row dict are `Option`s. -/
structure TradeRow where
  cont_code : String
  cont_nm : String
  maj_exp_cont_nm : Option String := none
  exp_rate : Option String := none
  maj_imp_cont_nm : Option String := none
  imp_rate : Option String := none
  deriving DecidableEq, Repr

/-- `itertools.zip_longest(a, b, fillvalue=fill)`. -/
def zipLongest {α : Type} (fill : α) : List α → List α → List (α × α)
  | [], [] => []
  | x :: xs, [] => (x, fill) :: zipLongest fill xs []
  | [], y :: ys => (fill, y) :: zipLongest fill [] ys
  | x :: xs, y :: ys => (x, y) :: zipLongest fill xs ys

theorem zipLongest_length {α : Type} (fill : α) (a b : List α) :
    (zipLongest fill a b).length = max a.length b.length := by
  induction a generalizing b with
  | nil =>
      induction b with
      | nil => simp [zipLongest]
      | cons y ys ihb => simp [zipLongest, ihb]
  | cons x xs iha =>
      cases b with
      | nil =>
          have := iha []
          simp [zipLongest, this]
      | cons y ys =>
          have := iha ys
          simp [zipLongest, this]
          omega

/-- `dict.get(key, '')`. -/
def pyGet (m : List (String × String)) (k : String) : String :=
  (alookup m k).getD ""

/-- `dict.get(key, '')` where the key may be Python `None` (never a dict
key here). -/
def pyGetOpt (m : List (String × String)) (k : Option String) : String :=
  match k with
  | none => ""
  | some s => pyGet m s

/-- `f"{rate:.3f}%" if rate != 0 else "0%"`. -/
def fmtRate (q : ℚ) : String :=
  if q ≠ 0 then pyFormat3 q else "0%"

/-- The per-country body of `_create_integrated_dataframe`: interleave the
export and import partner lists with `zip_longest` (fill `(None, 0)`),
render each pair through the ISO and name mappings, then append one
residual row carrying `"기타"` ("other") per direction that has at least
one partner and a total strictly below 100. -/
def integrateCountry (isoMap nameMap : List (String × String))
    (country_code : String) (data : CountryTradeData) : List TradeRow :=
  let export_total : ℚ := (data.export_partners.map Prod.snd).sum
  let import_total : ℚ := (data.import_partners.map Prod.snd).sum
  let country_name := pyGet nameMap country_code
  let pairs := zipLongest ((none : Option String), (0 : ℚ))
      (data.export_partners.map (fun p => (some p.1, p.2)))
      (data.import_partners.map (fun p => (some p.1, p.2)))
  let country_rows := pairs.map (fun pr =>
      { cont_code := country_code
        cont_nm := country_name
        maj_exp_cont_nm := some (pyGet nameMap (pyGetOpt isoMap pr.1.1))
        exp_rate := some (fmtRate pr.1.2)
        maj_imp_cont_nm := some (pyGet nameMap (pyGetOpt isoMap pr.2.1))
        imp_rate := some (fmtRate pr.2.2) : TradeRow })
  let condE := data.export_partners ≠ [] ∧ export_total < 100
  let condI := data.import_partners ≠ [] ∧ import_total < 100
  let etc_row : TradeRow :=
    { cont_code := country_code
      cont_nm := country_name
      maj_exp_cont_nm := if condE then some "기타" else none
      exp_rate := if condE then some (pyFormat3 (100 - export_total)) else none
      maj_imp_cont_nm := if condI then some "기타" else none
      imp_rate := if condI then some (pyFormat3 (100 - import_total)) else none }
  country_rows ++ (if condE ∨ condI then [etc_row] else [])

/-- `_create_integrated_dataframe`: one block of rows per aggregated
country, concatenated in dict order. -/
def createIntegratedRows (isoMap nameMap : List (String × String))
    (country_data : List (String × CountryTradeData)) : List TradeRow :=
  country_data.flatMap (fun p => integrateCountry isoMap nameMap p.1 p.2)

/-- Claim C3 — for every aggregated country: when a direction has at least
one accepted partner and its percentage total is strictly below 100,
exactly one residual row is appended after the interleaved pair rows, its
label for that direction is `"기타"` ("other") and its rate text renders
`100 − total` to three decimals; when a direction's total is ≥ 100 (or it
has no partner) that direction's fields on the appended row are absent;
when both directions qualify, both residual values sit on the same single
appended row; when neither qualifies, no row is appended. -/
theorem claim_C3_residual_row (isoMap nameMap : List (String × String))
    (cc : String) (data : CountryTradeData) :
    (((data.export_partners ≠ [] ∧
        (data.export_partners.map Prod.snd).sum < 100) ∨
      (data.import_partners ≠ [] ∧
        (data.import_partners.map Prod.snd).sum < 100)) →
      (integrateCountry isoMap nameMap cc data).length =
        max data.export_partners.length data.import_partners.length + 1 ∧
      ∃ r, (integrateCountry isoMap nameMap cc data).getLast? = some r ∧
        ((data.export_partners ≠ [] ∧
            (data.export_partners.map Prod.snd).sum < 100) →
          r.maj_exp_cont_nm = some "기타" ∧
          r.exp_rate =
            some (pyFormat3 (100 - (data.export_partners.map Prod.snd).sum))) ∧
        (¬ (data.export_partners ≠ [] ∧
            (data.export_partners.map Prod.snd).sum < 100) →
          r.maj_exp_cont_nm = none ∧ r.exp_rate = none) ∧
        ((data.import_partners ≠ [] ∧
            (data.import_partners.map Prod.snd).sum < 100) →
          r.maj_imp_cont_nm = some "기타" ∧
          r.imp_rate =
            some (pyFormat3 (100 - (data.import_partners.map Prod.snd).sum))) ∧
        (¬ (data.import_partners ≠ [] ∧
            (data.import_partners.map Prod.snd).sum < 100) →
          r.maj_imp_cont_nm = none ∧ r.imp_rate = none)) ∧
    (¬ ((data.export_partners ≠ [] ∧
          (data.export_partners.map Prod.snd).sum < 100) ∨
        (data.import_partners ≠ [] ∧
          (data.import_partners.map Prod.snd).sum < 100)) →
      (integrateCountry isoMap nameMap cc data).length =
        max data.export_partners.length data.import_partners.length) ∧
    (∀ r ∈ (integrateCountry isoMap nameMap cc data).take
        (max data.export_partners.length data.import_partners.length),
      r.maj_exp_cont_nm.isSome ∧ r.exp_rate.isSome ∧
      r.maj_imp_cont_nm.isSome ∧ r.imp_rate.isSome) := by
  have hrowslen :
      (zipLongest ((none : Option String), (0 : ℚ))
        (data.export_partners.map (fun p => (some p.1, p.2)))
        (data.import_partners.map (fun p => (some p.1, p.2)))).length =
      max data.export_partners.length data.import_partners.length := by
    rw [zipLongest_length]
    simp
  refine ⟨?_, ?_, ?_⟩
  · intro hcond
    simp only [integrateCountry]
    rw [if_pos hcond]
    constructor
    · simp [hrowslen]
    · refine ⟨_, List.getLast?_concat _, ?_, ?_, ?_, ?_⟩
      · intro hE
        simp only [if_pos hE]
        exact ⟨by trivial, by trivial⟩
      · intro hE
        simp only [if_neg hE]
        exact ⟨by trivial, by trivial⟩
      · intro hI
        simp only [if_pos hI]
        exact ⟨by trivial, by trivial⟩
      · intro hI
        simp only [if_neg hI]
        exact ⟨by trivial, by trivial⟩
  · intro hcond
    simp only [integrateCountry]
    rw [if_neg hcond]
    simp [hrowslen]
  · intro r hr
    simp only [integrateCountry] at hr
    rw [List.take_append_of_le_length (by simp [hrowslen])] at hr
    have hr' := List.mem_of_mem_take hr
    rcases List.mem_map.1 hr' with ⟨pr, _, hpr⟩
    rw [← hpr]
    exact ⟨rfl, rfl, rfl, rfl⟩

theorem pyFormat3_int (z : ℤ) (hz : 0 ≤ z) :
    pyFormat3 (z : ℚ) =
      "" ++ toString z.natAbs ++ "." ++ padZeros 0 3 ++ "%" := by
  simp only [pyFormat3]
  rw [show ((z : ℚ) * 1000) = (((z * 1000 : ℤ)) : ℚ) by push_cast; ring,
    roundHalfEven_int]
  have h1 : ¬ (z * 1000 < 0) := by omega
  rw [if_neg h1]
  have h2 : (z * 1000).natAbs = z.natAbs * 1000 := by
    rw [Int.natAbs_mul]
    rfl
  rw [h2, Nat.mul_div_cancel _ (by norm_num), Nat.mul_mod_left]

/-- Witness for C3 — the spec's own example scenario: country `FR`, export
partners Germany 40% and Italy 35%, import partner Spain 60%.  Three rows
come out: two interleaved pair rows and one residual row carrying export
`"기타"` 25.000% and import `"기타"` 40.000% together. -/
theorem claim_C3_residual_row_witness :
    (integrateCountry [] [] "FR"
      ⟨"FR", [("spain", 60)], [("germany", 40), ("italy", 35)]⟩).length = 3 ∧
    ((integrateCountry [] [] "FR"
      ⟨"FR", [("spain", 60)], [("germany", 40), ("italy", 35)]⟩).getLast?.map
        TradeRow.maj_exp_cont_nm) = some (some "기타") ∧
    ((integrateCountry [] [] "FR"
      ⟨"FR", [("spain", 60)], [("germany", 40), ("italy", 35)]⟩).getLast?.map
        TradeRow.exp_rate) = some (some "25.000%") ∧
    ((integrateCountry [] [] "FR"
      ⟨"FR", [("spain", 60)], [("germany", 40), ("italy", 35)]⟩).getLast?.map
        TradeRow.imp_rate) = some (some "40.000%") := by
  have main := (claim_C3_residual_row [] [] "FR"
    ⟨"FR", [("spain", 60)], [("germany", 40), ("italy", 35)]⟩).1
    (Or.inl ⟨by simp, by norm_num⟩)
  obtain ⟨hlen, r, hlast, hE, hEn, hI, hIn⟩ := main
  have hEr := hE ⟨by simp, by norm_num⟩
  have hIr := hI ⟨by simp, by norm_num⟩
  have h25 : pyFormat3 (100 - (List.map Prod.snd
      [("germany", (40 : ℚ)), ("italy", 35)]).sum) = "25.000%" := by
    rw [show (100 : ℚ) - (List.map Prod.snd
      [("germany", (40 : ℚ)), ("italy", 35)]).sum = ((25 : ℤ) : ℚ) by
        simp; norm_num]
    rw [pyFormat3_int 25 (by norm_num)]
    rfl
  have h40 : pyFormat3 (100 - (List.map Prod.snd
      [("spain", (60 : ℚ))]).sum) = "40.000%" := by
    rw [show (100 : ℚ) - (List.map Prod.snd
      [("spain", (60 : ℚ))]).sum = ((40 : ℤ) : ℚ) by simp; norm_num]
    rw [pyFormat3_int 40 (by norm_num)]
    rfl
  refine ⟨?_, ?_, ?_, ?_⟩
  · rw [hlen]
    decide
  · rw [hlast, Option.map_some']
    rw [hEr.1]
  · rw [hlast, Option.map_some']
    rw [hEr.2, h25]
  · rw [hlast, Option.map_some']
    rw [hIr.2, h40]

/-! ### Claim C4 — Country Bridge filtering
(`customs_item_service._transform_country_name`,
`socioeconomic_index_service._transform_country_name`) -/

/-- Two-hop resolution: source name → canonical code → target name; `none`
when either hop misses. -/
def resolveTwoHop (m1 m2 : List (String × String)) (tok : String) :
    Option String :=
  (alookup m1 tok).bind (fun iso => alookup m2 iso)

/-- Python `str.upper()` (ASCII). -/
def pyUpper (s : String) : String :=
  String.mk (s.data.map Char.toUpper)

/-- A Python dict built from a pair list: later duplicate keys overwrite. -/
def dictOfPairs (pairs : List (String × String)) : List (String × String) :=
  pairs.foldl (fun d p => dictInsert d p.1 p.2) []

/-- `customs_item_service._transform_country_name` on the country column:
compute the ISO code column, map it to the target name, then KEEP ONLY the
rows where both are non-null (lines 155–161).  The payload `α` stands for
the rest of the row. -/
def customsTransformCountry {α : Type} (m1 m2 : List (String × String))
    (rows : List (String × α)) : List (Option String × Option String × α) :=
  (rows.map (fun r =>
      (alookup m1 r.1, (alookup m1 r.1).bind (fun iso => alookup m2 iso), r.2))).filter
    (fun r => r.1.isSome ∧ r.2.1.isSome)

/-- The key-uppercased second mapping used by the socioeconomic service:
`{k.upper(): v for k, v in country_iso_names_raw.items()}`. -/
def socioM2 (m2 : List (String × String)) : List (String × String) :=
  dictOfPairs (m2.map (fun p => (pyUpper p.1, p.2)))

/-- `socioeconomic_index_service._transform_country_name` (non-WCI flags):
the same two-hop resolution — but the row filter on null resolutions is
commented out in the source (line 96), so every input row is kept, a missed
hop leaving `None` in the country-name column. -/
def socioTransformCountry {α : Type} (m1 m2 : List (String × String))
    (rows : List (String × α)) : List (Option String × Option String × α) :=
  rows.map (fun r =>
    (alookup m1 r.1,
     (alookup m1 r.1).bind (fun iso => alookup (socioM2 m2) iso), r.2))

/-- Claim C4, counterexample — the claim says that in *every* pipeline
resolving countries through the bridge, a row whose lookup misses is
removed downstream.  In the socioeconomic pipeline the removal is disabled:
the row for the unresolvable name `"Republic of X"` survives into the
output (with a null resolution), against a bridge that does not know it. -/
theorem claim_C4_bridge_filtering_counterexample :
    socioTransformCountry [] [("KR", "Korea")] [("Republic of X", (0 : Nat))] =
      [(none, none, 0)] ∧
    (socioTransformCountry [] [("KR", "Korea")]
      [("Republic of X", (0 : Nat))]).length = 1 ∧
    customsTransformCountry [] [("KR", "Korea")]
      [("Republic of X", (0 : Nat))] = [] := by
  refine ⟨rfl, rfl, rfl⟩

/-- Claim C4 (amended) — in the customs item pipeline, rows are bridged
source name → code → target name and every row for which either hop misses
is removed, without error: the output is exactly the input filtered to the
rows whose two-hop resolution succeeds, and it contains no null-resolved
row.  In the socioeconomic index pipeline the filtering statement is
commented out: every input row is kept, an unresolved row surviving with a
null name. -/
theorem claim_C4_bridge_filtering {α : Type} (m1 m2 : List (String × String))
    (rows : List (String × α)) :
    customsTransformCountry m1 m2 rows =
      rows.filterMap (fun r => (resolveTwoHop m1 m2 r.1).map
        (fun nm => (alookup m1 r.1, some nm, r.2))) ∧
    (∀ r ∈ customsTransformCountry m1 m2 rows, r.2.1.isSome = true) ∧
    (socioTransformCountry m1 m2 rows).length = rows.length ∧
    (∀ p ∈ rows, (alookup m1 p.1).bind (fun iso => alookup (socioM2 m2) iso) = none →
      ((alookup m1 p.1, (none : Option String), p.2) ∈
        socioTransformCountry m1 m2 rows)) := by
  refine ⟨?_, ?_, ?_, ?_⟩
  · induction rows with
    | nil => rfl
    | cons r rest ih =>
        simp only [customsTransformCountry, List.map_cons, List.filter_cons,
          List.filterMap_cons] at ih ⊢
        match h1 : alookup m1 r.1 with
        | none =>
            simp only [resolveTwoHop, h1, Option.bind, Option.map_none']
            simpa [h1] using ih
        | some iso =>
            match h2 : alookup m2 iso with
            | none =>
                simp only [resolveTwoHop, h1, Option.bind, h2, Option.map_none']
                simpa [h1, h2] using ih
            | some nm =>
                simp only [resolveTwoHop, h1, Option.bind, h2, Option.map_some']
                simpa [h1, h2] using ih
  · intro r hr
    unfold customsTransformCountry at hr
    have := (List.mem_filter.1 hr).2
    simp only [decide_eq_true_eq] at this
    exact this.2
  · unfold socioTransformCountry
    simp
  · intro p hp hnone
    unfold socioTransformCountry
    refine List.mem_map.2 ⟨p, hp, ?_⟩
    rw [hnone]

/-- Witness for C4: a resolvable row passes the customs filter with its
target name, an unresolvable one is dropped; the socio variant keeps both. -/
theorem claim_C4_bridge_filtering_witness :
    customsTransformCountry [("대한민국", "KR")] [("KR", "Korea")]
      [("대한민국", (1 : Nat)), ("Republic of X", 2)] =
      [(some "KR", some "Korea", 1)] ∧
    (socioTransformCountry [("대한민국", "KR")] [("KR", "Korea")]
      [("대한민국", (1 : Nat)), ("Republic of X", 2)]).length = 2 := by
  constructor
  · rw [(claim_C4_bridge_filtering [("대한민국", "KR")] [("KR", "Korea")]
      [("대한민국", (1 : Nat)), ("Republic of X", 2)]).1]
    rfl
  · exact (claim_C4_bridge_filtering [("대한민국", "KR")] [("KR", "Korea")]
      [("대한민국", (1 : Nat)), ("Republic of X", 2)]).2.2.1

/-! ### Claim C9 — run-ledger terminal outcome
(`process_eiu_economic_indicator`, lines 284–365;
`history_repository.start/success/fail_processing`) -/

/-- A ledger lifecycle call.  `success` records status "Y" with the result
table name and processed-row count; `fail` records status "N" with a
remark. -/
inductive LedgerEvent where
  | start
  | success (table : String) (count : Nat)
  | fail (remark : String)
  deriving DecidableEq, Repr

/-- The fallible-step outcomes of one `process_eiu_economic_indicator` run:
whether `get_history_info`/`validate_file` succeed, what `process_data`
returns (`none` = it raised, `some n` = a dataframe of `n` rows), and
whether the country mapping and the database save succeed.  The ledger
calls themselves are the external collaborator and are modelled as
succeeding (the claim presupposes a valid ledger entry). -/
structure PipelineSteps where
  histInfo : Bool
  validate : Bool
  processData : Option Nat
  countryMapping : Bool
  dbSave : Bool
  deriving DecidableEq, Repr

/-- Control-flow model of `process_eiu_economic_indicator`: the `try` body
runs `get_history_info`, `start_processing`, `validate_file`,
`process_data`, the `df.empty` check, the country mapping and the database
save in order, then `success_processing`; both `except` arms call
`fail_processing` and re-raise.  Returns the ledger events in call order
and whether the run returned normally. -/
def runEIUPipeline (s : PipelineSteps) : List LedgerEvent × Bool :=
  if s.histInfo = false then ([.fail "error"], false)
  else if s.validate = false then ([.start, .fail "error"], false)
  else
    match s.processData with
    | none => ([.start, .fail "error"], false)
    | some n =>
        if n = 0 then ([.start, .fail "error"], false)
        else if s.countryMapping = false then ([.start, .fail "error"], false)
        else if s.dbSave = false then ([.start, .fail "error"], false)
        else ([.start, .success "tb_rhr100" n], true)

/-- Does an event mark a terminal outcome (success or fail)? -/
def LedgerEvent.isTerminal : LedgerEvent → Bool
  | .start => false
  | .success _ _ => true
  | .fail _ => true

/-- Does an event mark success? -/
def LedgerEvent.isSuccess : LedgerEvent → Bool
  | .success _ _ => true
  | _ => false

/-- Claim C9 — every run of the pipeline against a valid ledger entry ends
with exactly one terminal ledger outcome: the success update (with result
table name and row count) when every step completes on a non-empty
dataframe, the fail update otherwise — never both, never neither. -/
theorem claim_C9_single_terminal_outcome (s : PipelineSteps) :
    ((runEIUPipeline s).1.countP (fun e => e.isTerminal)) = 1 ∧
    ((runEIUPipeline s).2 = true ↔
      (runEIUPipeline s).1.countP (fun e => e.isSuccess) = 1) ∧
    ((runEIUPipeline s).2 = false ↔
      (runEIUPipeline s).1.countP (fun e => e.isSuccess) = 0) := by
  obtain ⟨h, v, pd, cm, db⟩ := s
  cases h <;> cases v <;> cases cm <;> cases db <;>
    rcases pd with _ | n <;>
      first
        | (by_cases hn : n = 0 <;>
            simp [runEIUPipeline, hn, List.countP_cons, List.countP_nil,
              LedgerEvent.isTerminal, LedgerEvent.isSuccess])
        | (simp [runEIUPipeline, List.countP_cons, List.countP_nil,
            LedgerEvent.isTerminal, LedgerEvent.isSuccess])

/-! ### Flat output (`ExcelRowData.to_dataframe_dict`,
`_convert_to_dataframe`) — claims C2 and C10 -/

/-- Python `int(...)` on a digit string (year columns are pre-filtered with
`isdigit()`, so the plain positional read is exact). -/
def yearToNat (s : String) : Nat := digitsToNat s.data

/-- The output column carrying year `y`'s value: `f"eiu_year{int(y) % 100}"`. -/
def yearColName (y : String) : String :=
  "eiu_year" ++ toString (yearToNat y % 100)

/-- `ExcelRowData.to_dataframe_dict`: the five fixed metadata columns, then
one column per listed year column, keyed by the year modulo 100 — congruent
years collide on one dict slot, later assignment overwriting. -/
def toDataframeDict (r : ExcelRowData) (year_columns : List String) :
    List (String × Option String) :=
  let base : List (String × Option String) :=
    [("eiu_country_code", some r.country_code),
     ("eiu_series_title", r.series),
     ("eiu_code", r.code),
     ("eiu_currency", r.currency),
     ("eiu_units", r.units)]
  year_columns.foldl
    (fun d year =>
      dictInsert d (yearColName year)
        (some ((alookup r.year_data year).getD MISSING)))
    base

/-- `df[name] = value`: set one column on every row. -/
def assignColumn (df : List (List (String × Option String))) (name : String)
    (v : Option String) : List (List (String × Option String)) :=
  df.map (fun row => dictInsert row name v)

/-- `_convert_to_dataframe`: serialize every record with the given year
columns, then pad columns `eiu_year(maxYY+1) .. eiu_year51` with the bare
`FORECAST` token, where `maxYY` is the maximum listed year modulo 100. -/
def convertToDataframe (excel_rows : List ExcelRowData)
    (year_columns : List String) : List (List (String × Option String)) :=
  if excel_rows.isEmpty then []
  else
    let df := excel_rows.map (fun r => toDataframeDict r year_columns)
    if year_columns.isEmpty then df
    else
      let max_YY := ((year_columns.map yearToNat).foldl max 0) % 100
      (List.range' (max_YY + 1) (51 - max_YY)).foldl
        (fun df i => assignColumn df ("eiu_year" ++ toString i) (some FORECAST))
        df

/-- The merge in `process_data` (lines 251–253): the rows of all sheets are
concatenated, but the `year_columns` handed to `_convert_to_dataframe` is
the loop variable left over from the LAST sheet. -/
def mergedOutput (sheets : List (List ExcelRowData × List String)) :
    List (List (String × Option String)) :=
  convertToDataframe (sheets.flatMap Prod.fst)
    ((sheets.getLast?.map Prod.snd).getD [])

/-- Keys after a fold of `dictInsert`s depend only on the starting keys and
the inserted key sequence, never on the values. -/
theorem dictKeys_foldl_insert {γ : Type} (L : List γ) (key : γ → String)
    (v1 v2 : γ → Option String) (d1 d2 : List (String × Option String))
    (h : dictKeys d1 = dictKeys d2) :
    dictKeys (L.foldl (fun d y => dictInsert d (key y) (v1 y)) d1) =
      dictKeys (L.foldl (fun d y => dictInsert d (key y) (v2 y)) d2) := by
  induction L generalizing d1 d2 with
  | nil => exact h
  | cons y rest ih =>
      simp only [List.foldl_cons]
      refine ih _ _ ?_
      rw [dictKeys_dictInsert, dictKeys_dictInsert, h]

/-- Mapping a per-row update across the frame at each fold step is the same
as folding the updates over each row. -/
theorem foldl_assign_comm {γ : Type} (L : List γ)
    (key : γ → String) (v : γ → Option String)
    (df : List (List (String × Option String))) :
    L.foldl (fun acc i => assignColumn acc (key i) (v i)) df =
      df.map (fun row =>
        L.foldl (fun r i => dictInsert r (key i) (v i)) row) := by
  induction L generalizing df with
  | nil => simp
  | cons i rest ih =>
      simp only [List.foldl_cons]
      rw [ih (assignColumn df (key i) (v i))]
      unfold assignColumn
      rw [List.map_map]
      rfl

/-- A binding `k ↦ v` survives any further constant-`v` inserts. -/
theorem alookup_foldl_insert_preserved {γ : Type} (L : List γ)
    (key : γ → String) (v : Option String)
    (d : List (String × Option String)) (k : String)
    (h : alookup d k = some v) :
    alookup (L.foldl (fun d y => dictInsert d (key y) v) d) k = some v := by
  induction L generalizing d with
  | nil => exact h
  | cons j rest ih =>
      simp only [List.foldl_cons]
      by_cases hj : key j = k
      · refine ih _ ?_
        rw [hj]
        exact alookup_dictInsert_self _ _ _
      · refine ih _ ?_
        rw [alookup_dictInsert_ne _ _ _ _ hj]
        exact h

/-- After folding constant-valued inserts, any key that was inserted at
least once reads back that constant. -/
theorem alookup_foldl_insert_const {γ : Type} (L : List γ)
    (key : γ → String) (v : Option String)
    (d : List (String × Option String)) (k : String)
    (h : ∃ j ∈ L, key j = k) :
    alookup (L.foldl (fun d y => dictInsert d (key y) v) d) k = some v := by
  induction L generalizing d with
  | nil => simp at h
  | cons j0 rest ih =>
      simp only [List.foldl_cons]
      by_cases hj0 : key j0 = k
      · refine alookup_foldl_insert_preserved rest key v _ k ?_
        rw [hj0]
        exact alookup_dictInsert_self _ _ _
      · refine ih _ ?_
        rcases h with ⟨j, hj, hk⟩
        rcases List.mem_cons.1 hj with h1 | h1
        · exact absurd (h1 ▸ hk) hj0
        · exact ⟨j, h1, hk⟩

/-- A key present in the dictionary survives any further inserts. -/
theorem alookup_isSome_foldl_insert {γ : Type} (L : List γ)
    (key : γ → String) (v : γ → Option String)
    (d : List (String × Option String)) (k : String)
    (h : k ∈ dictKeys d) :
    k ∈ dictKeys (L.foldl (fun d y => dictInsert d (key y) (v y)) d) := by
  induction L generalizing d with
  | nil => exact h
  | cons j rest ih =>
      simp only [List.foldl_cons]
      refine ih _ ?_
      rw [dictKeys_dictInsert]
      by_cases hm : key j ∈ dictKeys d
      · simpa [hm] using h
      · simp [hm, h]

/-- The key of every listed element ends up in the dictionary. -/
theorem mem_dictKeys_foldl_insert {γ : Type} (L : List γ)
    (key : γ → String) (v : γ → Option String)
    (d : List (String × Option String)) (j : γ) (hj : j ∈ L) :
    key j ∈ dictKeys (L.foldl (fun d y => dictInsert d (key y) (v y)) d) := by
  induction L generalizing d with
  | nil => simp at hj
  | cons j0 rest ih =>
      simp only [List.foldl_cons]
      rcases List.mem_cons.1 hj with h1 | h1
      · subst h1
        refine alookup_isSome_foldl_insert rest key v _ _ ?_
        rw [dictKeys_dictInsert]
        by_cases hm : key j ∈ dictKeys d
        · simp [hm]
        · simp [hm]
      · exact ih _ h1

/-- Serializations of the same year-column list always carry the same
column-name sequence, whatever the record holds. -/
theorem dictKeys_toDataframeDict_eq (r r' : ExcelRowData) (yc : List String) :
    dictKeys (toDataframeDict r yc) = dictKeys (toDataframeDict r' yc) :=
  dictKeys_foldl_insert yc yearColName
    (fun y => some ((alookup r.year_data y).getD MISSING))
    (fun y => some ((alookup r'.year_data y).getD MISSING)) _ _ rfl

/-- The padded-frame shape: for a non-empty record list and year list,
`_convert_to_dataframe` is row-wise serialization followed by a per-row
fold of the Forecast-column inserts. -/
theorem convertToDataframe_shape (rows : List ExcelRowData)
    (yc : List String) (hrows : ¬ rows.isEmpty = true)
    (hyc : ¬ yc.isEmpty = true) :
    convertToDataframe rows yc =
      rows.map (fun r =>
        (List.range' (((yc.map yearToNat).foldl max 0) % 100 + 1)
            (51 - ((yc.map yearToNat).foldl max 0) % 100)).foldl
          (fun row i => dictInsert row ("eiu_year" ++ toString i)
            (some FORECAST))
          (toDataframeDict r yc)) := by
  simp only [convertToDataframe]
  rw [if_neg hrows, if_neg hyc]
  rw [foldl_assign_comm _ (fun i => "eiu_year" ++ toString i)
    (fun _ => some FORECAST)]
  rw [List.map_map]
  rfl

/-- Every padded column in range reads the bare Forecast token on every
output row. -/
theorem convertToDataframe_pad_lookup (rows : List ExcelRowData)
    (yc : List String) (hrows : ¬ rows.isEmpty = true)
    (hyc : ¬ yc.isEmpty = true) (i : Nat)
    (hi1 : ((yc.map yearToNat).foldl max 0) % 100 < i) (hi2 : i ≤ 51) :
    ∀ row ∈ convertToDataframe rows yc,
      alookup row ("eiu_year" ++ toString i) = some (some FORECAST) := by
  intro row hrow
  rw [convertToDataframe_shape rows yc hrows hyc] at hrow
  rcases List.mem_map.1 hrow with ⟨r, _, hres⟩
  rw [← hres]
  refine alookup_foldl_insert_const _ (fun i => "eiu_year" ++ toString i)
    (some FORECAST) _ _ ⟨i, ?_, rfl⟩
  rw [List.mem_range'_1]
  omega

/-- Concrete sheets for the C2 counterexample: a first sheet with a single
2030 year column carrying actual data, then a last sheet whose only year
column is 2025. -/
def c2rowA : ExcelRowData :=
  { country_code := "AA", year_data := [("2030", "ACT|1.0")] }

/-- The last sheet's record, carrying year 2025 only. -/
def c2rowB : ExcelRowData :=
  { country_code := "BB", year_data := [("2025", "ACT|2.0")] }

/-- Two sheets with differing maximum year columns, the later one smaller. -/
def c2sheets : List (List ExcelRowData × List String) :=
  [([c2rowA], ["2030"]), ([c2rowB], ["2025"])]

/-- Claim C2, counterexample — the claim says padding is computed from the
*global* maximum year across all sheets, with only years strictly greater
than it padded as Forecast.  But `_convert_to_dataframe` receives the loop
variable `year_columns` of the LAST sheet: with a global maximum of 2030
and a last sheet topping at 2025, the column of year 2030 itself —
2030 is not strictly greater than the global maximum — is overwritten to
the payload-less Forecast token on every record, losing row A's extracted
value. -/
theorem claim_C2_forecast_padding_counterexample :
    ((c2sheets.flatMap Prod.snd).map yearToNat).foldl max 0 = 2030 ∧
    (mergedOutput c2sheets).map (fun row => alookup row "eiu_year30") =
      [some (some FORECAST), some (some FORECAST)] ∧
    alookup c2rowA.year_data "2030" = some "ACT|1.0" := by
  refine ⟨by decide, by decide, by decide⟩

/-- Claim C2 (amended) — every record of the merged output carries the same
column-name sequence (hence the same set and number of year columns),
because every record is serialized against the one `year_columns` list in
scope after the sheet loop — that of the LAST processed sheet; and for
every slot `i` strictly greater than the last sheet's maximum year mod 100,
up through slot 51, column `eiu_year{i}` holds the payload-less Forecast
token on every record. -/
theorem claim_C2_forecast_padding
    (sheets : List (List ExcelRowData × List String)) :
    (∀ row1 ∈ mergedOutput sheets, ∀ row2 ∈ mergedOutput sheets,
      dictKeys row1 = dictKeys row2) ∧
    (∀ lastEntry, sheets.getLast? = some lastEntry →
      ¬ lastEntry.2.isEmpty = true →
      ∀ i, ((lastEntry.2.map yearToNat).foldl max 0) % 100 < i → i ≤ 51 →
        ∀ row ∈ mergedOutput sheets,
          alookup row ("eiu_year" ++ toString i) = some (some FORECAST)) := by
  constructor
  · intro row1 h1 row2 h2
    unfold mergedOutput at h1 h2
    by_cases hrows : (sheets.flatMap Prod.fst).isEmpty = true
    · simp only [convertToDataframe, hrows, if_true] at h1
      simp at h1
    · by_cases hyc : (((sheets.getLast?.map Prod.snd).getD [])).isEmpty = true
      · simp only [convertToDataframe, hrows] at h1 h2
        rw [if_neg (by simp [hrows])] at h1 h2
        rw [if_pos hyc] at h1 h2
        rcases List.mem_map.1 h1 with ⟨rA, _, hA⟩
        rcases List.mem_map.1 h2 with ⟨rB, _, hB⟩
        rw [← hA, ← hB]
        exact dictKeys_toDataframeDict_eq rA rB _
      · rw [convertToDataframe_shape _ _ hrows hyc] at h1 h2
        rcases List.mem_map.1 h1 with ⟨rA, _, hA⟩
        rcases List.mem_map.1 h2 with ⟨rB, _, hB⟩
        rw [← hA, ← hB]
        exact dictKeys_foldl_insert _ _ _ _ _ _
          (dictKeys_toDataframeDict_eq rA rB _)
  · intro lastEntry hlast hyc i hi1 hi2 row hrow
    unfold mergedOutput at hrow
    have hycs : ((sheets.getLast?.map Prod.snd).getD []) = lastEntry.2 := by
      rw [hlast]
      rfl
    rw [hycs] at hrow
    by_cases hrows : (sheets.flatMap Prod.fst).isEmpty = true
    · simp only [convertToDataframe, hrows, if_true] at hrow
      simp at hrow
    · exact convertToDataframe_pad_lookup _ _ hrows hyc i hi1 hi2 row hrow

/-- Witness for C2 at the concrete two-sheet workbook: the first two output
rows share their column list, and slot 31 (past the last sheet's maximum
25) is Forecast on the first row. -/
theorem claim_C2_forecast_padding_witness :
    dictKeys ((mergedOutput c2sheets).getD 0 []) =
      dictKeys ((mergedOutput c2sheets).getD 1 []) ∧
    alookup ((mergedOutput c2sheets).getD 0 []) "eiu_year31" =
      some (some FORECAST) :=
  ⟨(claim_C2_forecast_padding c2sheets).1 _ (by decide) _ (by decide),
   (claim_C2_forecast_padding c2sheets).2 ([c2rowB], ["2025"]) rfl (by decide)
     31 (by decide) (by decide) _ (by decide)⟩

/-- Claim C10 — (a) year `Y`'s classified value lands in the column named
`eiu_year(Y mod 100)`; (b) two year columns congruent mod 100 share one
output column, the later year's value winning; (c) Forecast padding fills
exactly slots `maxYY+1 .. 51` on every record, `maxYY` being the padded-from
maximum year mod 100; (d) when `maxYY ≥ 51` no Forecast column is added. -/
theorem claim_C10_year_column_naming (r : ExcelRowData) (yc : List String)
    (y y1 y2 : String) (rows : List ExcelRowData) :
    (y ∈ yc → yearColName y ∈ dictKeys (toDataframeDict r yc)) ∧
    (yearColName y1 = yearColName y2 →
      alookup (toDataframeDict r [y1, y2]) (yearColName y1) =
        some (some ((alookup r.year_data y2).getD MISSING))) ∧
    (¬ rows.isEmpty = true → ¬ yc.isEmpty = true →
      ∀ i, ((yc.map yearToNat).foldl max 0) % 100 < i → i ≤ 51 →
        ∀ row ∈ convertToDataframe rows yc,
          alookup row ("eiu_year" ++ toString i) = some (some FORECAST)) ∧
    (51 ≤ ((yc.map yearToNat).foldl max 0) % 100 →
      convertToDataframe rows yc =
        if rows.isEmpty then []
        else rows.map (fun r => toDataframeDict r yc)) := by
  refine ⟨?_, ?_, ?_, ?_⟩
  · intro hy
    exact mem_dictKeys_foldl_insert yc yearColName
      (fun y => some ((alookup r.year_data y).getD MISSING)) _ y hy
  · intro heq
    simp only [toDataframeDict, List.foldl_cons, List.foldl_nil]
    rw [heq]
    exact alookup_dictInsert_self _ _ _
  · intro hrows hyc
    exact fun i hi1 hi2 => convertToDataframe_pad_lookup rows yc hrows hyc i hi1 hi2
  · intro hm
    by_cases hrows : rows.isEmpty = true
    · simp [convertToDataframe, hrows]
    · by_cases hyc : yc.isEmpty = true
      · simp [convertToDataframe, hrows, hyc]
      · have hrange : 51 - ((yc.map yearToNat).foldl max 0) % 100 = 0 := by
          omega
        simp only [convertToDataframe, hrows, if_false]
        rw [if_neg hyc, hrange]
        simp [List.range']

/-- Witness for C10: year 2023 lands in `eiu_year23`; years 1999 and 2099
collide on `eiu_year99` with the later winning; slot 30 of the concrete
frame is Forecast. -/
theorem claim_C10_year_column_naming_witness :
    yearColName "2023" ∈
      dictKeys (toDataframeDict c2rowA ["2023"]) ∧
    alookup (toDataframeDict
        { country_code := "AA",
          year_data := [("1999", "ACT|1.0"), ("2099", "ACT|2.0")] }
        ["1999", "2099"]) (yearColName "1999") = some (some "ACT|2.0") ∧
    alookup ((convertToDataframe [c2rowB] ["2025"]).getD 0 []) "eiu_year30" =
      some (some FORECAST) :=
  ⟨(claim_C10_year_column_naming c2rowA ["2023"] "2023" "" "" []).1 (by decide),
   (claim_C10_year_column_naming
      { country_code := "AA",
        year_data := [("1999", "ACT|1.0"), ("2099", "ACT|2.0")] }
      [] "" "1999" "2099" []).2.1 (by decide),
   (claim_C10_year_column_naming c2rowB ["2025"] "" "" "" [c2rowB]).2.2.1
      (by decide) (by decide) 30 (by decide) (by decide) _ (by decide)⟩

end ETL
